import Mathlib

/-!
Shallow embedding of `internal/command/deploy/deploy.go` (flyctl deploy
pipeline): configuration data model, backend selection (`useMachines`),
image determination (`determineImage` and its helpers), and the top-level
`DeployWithConfig` pipeline, together with theorems about them.

Go maps `map[string]string` are modelled as association lists with
first-match lookup and an insert that removes the shadowed binding, so a
map always has at most one binding per key. External fallible calls
(API client, image resolver, rollout engine) are modelled as explicit
result parameters.
-/

set_option autoImplicit false

namespace FlyctlDeploy

/-- Model of Go `map[string]string`: an association list whose
keys are unique (maintained by `ArgsMap.insert`). -/
abbrev ArgsMap := List (String × String)

/-- First-match lookup, the model of a Go map read `m[k]` (with presence). -/
def ArgsMap.find : ArgsMap → String → Option String
  | [], _ => none
  | (k, v) :: rest, key => if k == key then some v else ArgsMap.find rest key

/-- Model of the Go map write `m[k] = v`: the new binding replaces any
previous binding of the same key. -/
def ArgsMap.insert (m : ArgsMap) (k v : String) : ArgsMap :=
  (k, v) :: m.filter (fun p => !(p.1 == k))

/-- Keys of the map, for the uniqueness invariant. -/
def ArgsMap.keys (m : ArgsMap) : List String := m.map (fun p => p.1)

/-- Model of a Go map read `m[k]` that yields the zero value `""` for a
missing key. -/
def ArgsMap.getZ (m : ArgsMap) (k : String) : String := (m.find k).getD ""

/-- Split a character list at every occurrence of `sep`
(model of the splitting underlying `strings.SplitN(s, sep, 2)` when the
pieces are rejoined). -/
def splitChar (sep : Char) : List Char → List (List Char)
  | [] => [[]]
  | c :: cs =>
    match splitChar sep cs with
    | [] => [[]]
    | g :: gs => if c = sep then [] :: g :: gs else (c :: g) :: gs

/-- Modelled from the spec: one `KEY=VALUE` entry. The key is the text
before the first `=`, the value the rest; an entry containing no `=` is
malformed and fails with a parse error carrying the offending entry. -/
def parseKVEntry (e : String) : Except String (String × String) :=
  match (splitChar '=' e.data).map (fun l => String.mk l) with
  | [_] => Except.error e
  | k :: rest => Except.ok (k, String.intercalate "=" rest)
  | [] => Except.error e

/-- Fold of `parseKVEntry` over the remaining entries, accumulating the
map; the first malformed entry aborts the parse. -/
def parseKVAux (acc : ArgsMap) : List String → Except String ArgsMap
  | [] => Except.ok acc
  | e :: es =>
    match parseKVEntry e with
    | Except.error err => Except.error err
    | Except.ok kv => parseKVAux (acc.insert kv.1 kv.2) es

/-- Modelled from the spec: `cmdutil.ParseKVStringsToMap` is not part of
this excerpt. Per the spec (§4.1, §7), `KEY=VALUE` entries parse into a
string map and a malformed entry fails with a parse error. Later entries
override earlier ones per key, as map assignment does. -/
def parseKVStringsToMap (entries : List String) : Except String ArgsMap :=
  parseKVAux [] entries

/-- Model of `mergeBuildArgs` from deploy.go: starts from the config's build args
(a fresh empty map when the config carries none), parses the CLI
`--build-arg` entries, and writes each CLI pair into the map, overriding
config values key by key. A CLI parse failure yields the wrapped
`invalid build args` error. The returned map is the config's own map
updated in place whenever the config carried one (aliasing modelled in
`determineImage`). -/
def mergeBuildArgs (configArgs : Option ArgsMap) (cliBuildArgFlags : List String) :
    Except String ArgsMap :=
  let args := configArgs.getD []
  match parseKVStringsToMap cliBuildArgFlags with
  | Except.error e => Except.error ("invalid build args: " ++ e)
  | Except.ok cli => Except.ok (cli.foldl (fun m p => m.insert p.1 p.2) args)

/-- The build section of an app config (`appconfig.Build`), fields used by
deploy.go. `args` is `Option` to model a nil Go map. `settings` models
`map[string]interface{}` with string values. -/
structure Build where
  image : String
  builder : String
  builtin : String
  settings : ArgsMap
  buildpacks : List String
  args : Option ArgsMap
  deriving Repr, DecidableEq

/-- The app config (`appconfig.Config`) as used by deploy.go. The fields
`dockerfile`, `ignorefile`, `configFilePath`, `dockerBuildTarget` and
`buildStrategies` model the results of the corresponding accessor methods
(`Config.Dockerfile()` etc.), whose bodies are outside this excerpt. -/
structure Config where
  appName : String
  primaryRegion : String
  env : ArgsMap
  build : Option Build
  dockerfile : String
  ignorefile : String
  configFilePath : String
  dockerBuildTarget : String
  buildStrategies : List String
  deriving Repr, DecidableEq

/-- Model of `fetchImageRef` from deploy.go: the CLI `--image` flag wins when
non-empty; otherwise the config's build-section image (possibly empty);
otherwise the empty reference. Never returns an error. -/
def fetchImageRef (imageFlag : String) (cfg : Option Config) : String :=
  if imageFlag != "" then imageFlag
  else
    match cfg with
    | some c =>
      match c.build with
      | some b => b.image
      | none => ""
    | none => ""

/-- Simplified model of Go `filepath.Dir`: everything before the last
path separator (`"."` when there is none, `"/"` when the separator is
leading); path cleaning of `.`/`..` segments is not modelled. -/
def filepathDir (p : String) : String :=
  match (splitChar '/' p.data).dropLast with
  | [] => "."
  | [[]] => "/"
  | parts => String.mk (List.intercalate ['/'] parts)

/-- Simplified model of Go `filepath.Join` on two segments (no cleaning). -/
def filepathJoin (a b : String) : String :=
  if a == "" then b else if b == "" then a else a ++ "/" ++ b

/-- Does `s` start with the character `c`? -/
def strStartsWith (s : String) (c : Char) : Bool :=
  match s.data with
  | [] => false
  | c0 :: _ => c0 == c

/-- Simplified model of Go `filepath.Abs`: a rooted path is returned as
is, a relative one is joined to the working directory (no cleaning, no
error: `os.Getwd` failure is not modelled). -/
def filepathAbs (cwd p : String) : String :=
  if strStartsWith p '/' then p else filepathJoin cwd p

/-- Model of `resolveDockerfilePath` from deploy.go: a config-declared Dockerfile
path is joined to the config file's directory and any CLI `--dockerfile`
flag is ignored; otherwise the CLI flag is used. The deferred block
absolutizes a non-empty result. -/
def resolveDockerfilePath (cwd : String) (cfg : Config) (dockerfileFlag : String) : String :=
  let path :=
    if cfg.dockerfile != "" then
      filepathJoin (filepathDir cfg.configFilePath) cfg.dockerfile
    else dockerfileFlag
  if path != "" then filepathAbs cwd path else path

/-- Model of `resolveIgnorefilePath` from deploy.go, same shape as
`resolveDockerfilePath` for the ignore file. -/
def resolveIgnorefilePath (cwd : String) (cfg : Config) (ignorefileFlag : String) : String :=
  let path :=
    if cfg.ignorefile != "" then
      filepathJoin (filepathDir cfg.configFilePath) cfg.ignorefile
    else ignorefileFlag
  if path != "" then filepathAbs cwd path else path

/-- Model of `api.AppCompact` as used by deploy.go: deployment history, recorded
platform marker, and the organization slug used for the org lookup. -/
structure AppCompact where
  deployed : Bool
  platformVersion : String
  organizationSlug : String
  deriving Repr, DecidableEq

/-- The constant `appconfig.MachinesPlatform`. -/
def MachinesPlatform : String := "machines"

/-- Model of `DeployWithConfigArgs` from deploy.go. -/
structure DeployWithConfigArgs where
  forceMachines : Bool
  forceNomad : Bool
  forceYes : Bool
  deriving Repr, DecidableEq

/-- Model of `useMachines` from deploy.go. Here `orgLookup` is the result pair of
`apiClient.GetAppsV2DefaultOnForOrg`: the boolean default-on value and an
optional error. As in the source, the error component is discarded
(`appsV2DefaultOn, _ := ...`) and every branch returns a nil error. -/
def useMachines (appCompact : AppCompact) (args : DeployWithConfigArgs)
    (orgLookup : Bool × Option String) : Bool × Option String :=
  let appsV2DefaultOn := orgLookup.1
  if !appCompact.deployed && args.forceNomad then (false, none)
  else if !appCompact.deployed && args.forceMachines then (true, none)
  else if !appCompact.deployed && (appCompact.platformVersion == MachinesPlatform) then
    (true, none)
  else if appCompact.deployed then (appCompact.platformVersion == MachinesPlatform, none)
  else if args.forceYes then (appsV2DefaultOn, none)
  else (appsV2DefaultOn, none)

/-- The backend decision table of spec §4.3, written from its words:
rows evaluated top-to-bottom, first match wins. `forceLegacy` is the
`--force-nomad` flag, `forceModern` the `--force-machines` flag. -/
def specSelectBackend (neverDeployed forceLegacy forceModern : Bool)
    (recordedMarker : String) (orgDefaultOn : Bool) : Bool :=
  if neverDeployed && forceLegacy then false
  else if neverDeployed && forceModern then true
  else if neverDeployed && (recordedMarker == MachinesPlatform) then true
  else if !neverDeployed then recordedMarker == MachinesPlatform
  else orgDefaultOn

/-- Model of `imgsrc.DeploymentImage`: resolved tag and size in bytes. -/
structure DeploymentImage where
  tag : String
  size : Nat
  deriving Repr, DecidableEq

/-- Model of `imgsrc.RefOptions` as assembled by `determineImage` for the
resolve-by-reference path. -/
structure RefOptions where
  appName : String
  workingDir : String
  publish : Bool
  imageRef : String
  imageLabel : String
  deriving Repr, DecidableEq

/-- Model of `imgsrc.ImageOptions` as assembled by `determineImage` for the
build-from-source path. -/
structure ImageOptions where
  appName : String
  workingDir : String
  publish : Bool
  imageLabel : String
  noCache : Bool
  builtIn : String
  builtInSettings : ArgsMap
  builder : String
  buildpacks : List String
  buildSecrets : Option ArgsMap
  buildArgs : ArgsMap
  dockerfilePath : String
  ignorefilePath : String
  target : String
  deriving Repr, DecidableEq

/-- The one call `determineImage` hands to the external image engine,
with the options it was given. -/
inductive ImageCall where
  | resolveReference (opts : RefOptions)
  | buildImage (opts : ImageOptions)
  deriving Repr, DecidableEq

/-- The external image engine (`imgsrc.Resolver`): each operation's
result is a Go `(img *DeploymentImage, err error)` pair, modelled as the
two options. -/
structure ImageEngine where
  resolveReference : RefOptions → Option DeploymentImage × Option String
  buildImage : ImageOptions → Option DeploymentImage × Option String

/-- The CLI flags read by `determineImage` and `DeployWithConfig`. -/
structure Flags where
  image : String
  imageLabel : String
  buildOnly : Bool
  push : Bool
  noCache : Bool
  dockerfile : String
  ignorefile : String
  buildTarget : String
  buildArgs : List String
  buildSecrets : List String
  regionFlag : String
  strategy : String
  detach : Bool

/-- Result of `determineImage`: the app config after the call (its
build-args map may have been written through), the engine call made (if
any), and the Go `(img, err)` return pair. -/
structure DetermineImageResult where
  cfg : Config
  call : Option ImageCall
  img : Option DeploymentImage
  err : Option String

/-- The `RefOptions` assembled by `determineImage` for the
resolve-by-reference path (`opts` at the top of the `imageRef != ""`
branch). -/
def refOptionsOf (cwd : String) (fl : Flags) (cfg : Config) : RefOptions :=
  { appName := cfg.appName, workingDir := cwd, publish := !fl.buildOnly,
    imageRef := fetchImageRef fl.image (some cfg), imageLabel := fl.imageLabel }

/-- Model of the source lines `build := appConfig.Build` followed by the nil check that replaces a nil build section with a fresh empty one. -/
def buildOf (cfg : Config) : Build :=
  cfg.build.getD
    { image := "", builder := "", builtin := "", settings := [], buildpacks := [], args := none }

/-- The `ImageOptions` assembled by `determineImage` for the
build-from-source path, given the parsed CLI build secrets and the merged
build args. -/
def imageOptionsOf (cwd : String) (fl : Flags) (cfg : Config)
    (cliBuildSecrets mergedArgs : ArgsMap) : ImageOptions :=
  { appName := cfg.appName, workingDir := cwd,
    publish := fl.push || !fl.buildOnly, imageLabel := fl.imageLabel,
    noCache := fl.noCache, builtIn := (buildOf cfg).builtin,
    builtInSettings := (buildOf cfg).settings, builder := (buildOf cfg).builder,
    buildpacks := (buildOf cfg).buildpacks, buildSecrets := some cliBuildSecrets,
    buildArgs := mergedArgs,
    dockerfilePath := resolveDockerfilePath cwd cfg fl.dockerfile,
    ignorefilePath := resolveIgnorefilePath cwd cfg fl.ignorefile,
    target :=
      if cfg.dockerBuildTarget != "" then cfg.dockerBuildTarget
      else if fl.buildTarget != "" then fl.buildTarget else "" }

/-- The write-through of the merged build args into the config's own
build-args map (Go map aliasing in `mergeBuildArgs`): it happens exactly
when the config carries a build section with a non-nil args map. -/
def writeBackArgs (cfg : Config) (mergedArgs : ArgsMap) : Config :=
  match cfg.build with
  | some b =>
    match b.args with
    | some _ => { cfg with build := some { b with args := some mergedArgs } }
    | none => cfg
  | none => cfg

/-- Model of the source check `if img, err = resolver.BuildImage(...); err == nil && img == nil {
err = errors.New("no image specified") }`. -/
def buildErr (r : Option DeploymentImage × Option String) : Option String :=
  match r.2, r.1 with
  | none, none => some "no image specified"
  | e, _ => e

/-- Model of `determineImage` from deploy.go. On a non-empty image reference it
delegates to `ResolveReference` and returns that result verbatim. On the
build path it assembles `ImageOptions` from config and flags (CLI build
secrets parsed, build args merged, Dockerfile/ignore-file paths resolved,
config build target beating the CLI one), calls `BuildImage`, and turns a
`(nil, nil)` result into the `no image specified` error. The advisory
warning about an auto-discovered Dockerfile and the heartbeat
acquisition/release have no effect on the returned data and are not
modelled. -/
def determineImage (engine : ImageEngine) (cwd : String) (fl : Flags) (cfg : Config) :
    DetermineImageResult :=
  if fetchImageRef fl.image (some cfg) != "" then
    { cfg := cfg,
      call := some (ImageCall.resolveReference (refOptionsOf cwd fl cfg)),
      img := (engine.resolveReference (refOptionsOf cwd fl cfg)).1,
      err := (engine.resolveReference (refOptionsOf cwd fl cfg)).2 }
  else
    match parseKVStringsToMap fl.buildSecrets with
    | Except.error e => { cfg := cfg, call := none, img := none, err := some e }
    | Except.ok cliBuildSecrets =>
      match mergeBuildArgs (buildOf cfg).args fl.buildArgs with
      | Except.error e => { cfg := cfg, call := none, img := none, err := some e }
      | Except.ok mergedArgs =>
        { cfg := writeBackArgs cfg mergedArgs,
          call := some (ImageCall.buildImage
            (imageOptionsOf cwd fl cfg cliBuildSecrets mergedArgs)),
          img := (engine.buildImage (imageOptionsOf cwd fl cfg cliBuildSecrets mergedArgs)).1,
          err := buildErr
            (engine.buildImage (imageOptionsOf cwd fl cfg cliBuildSecrets mergedArgs)) }

/-- The observable dispatches of one `DeployWithConfig` run. -/
inductive Effect where
  | imageCall (c : ImageCall)
  | createReleaseCall
  | machineDeployCall
  deriving Repr, DecidableEq

/-- Results of the external calls `DeployWithConfig` makes, besides the
image engine: the app summary fetch, the org default-on lookup, config
normalization for the machines backend, release creation, the remaining
legacy release flow, and the machine rollout. -/
structure PipelineEnv where
  getAppCompact : Except String AppCompact
  orgLookup : Bool × Option String
  ensureV2 : Option String
  engine : ImageEngine
  createRelease : Option String
  releaseFlow : Option String
  machineDeploy : Option String

/-- Result of one `DeployWithConfig` run: the app config after the run
(the source mutates it in place), the dispatches made, and the returned
error. -/
structure DeployResult where
  cfg : Config
  trace : List Effect
  err : Option String

/-- Model of `DeployWithConfig` from deploy.go: fetch the app summary, select the
backend via `useMachines`, normalize the config for the machines backend
when selected, determine the image, stop successfully in build-only mode,
inject `PRIMARY_REGION` into the config's environment when the config has
a primary region and the environment does not, then dispatch to the
machine rollout or to release creation. The legacy flow after a
successful release creation (release-command watch, IMMEDIATE strategy
check, deployment watch) is abstracted into the single outcome
`env.releaseFlow`; a detached run returns right after release creation. -/
def traceOfCall : Option ImageCall → List Effect
  | some c => [Effect.imageCall c]
  | none => []

/-- The `PRIMARY_REGION` injection of `DeployWithConfig`: when the config
has a primary region and the environment mapping does not carry a
non-empty `PRIMARY_REGION`, the primary region is written into the
environment (a Go map lookup of a missing key yields `""`). -/
def primaryRegionInject (cfg : Config) : Config :=
  if cfg.primaryRegion != "" && ArgsMap.getZ cfg.env "PRIMARY_REGION" == "" then
    { cfg with env := ArgsMap.insert cfg.env "PRIMARY_REGION" cfg.primaryRegion }
  else cfg

def DeployWithConfig (env : PipelineEnv) (cwd : String) (fl : Flags) (cfg : Config)
    (args : DeployWithConfigArgs) : DeployResult :=
  match env.getAppCompact with
  | Except.error e => { cfg := cfg, trace := [], err := some e }
  | Except.ok appCompact =>
    match (useMachines appCompact args env.orgLookup).2 with
    | some e => { cfg := cfg, trace := [], err := some e }
    | none =>
      match (if (useMachines appCompact args env.orgLookup).1 then env.ensureV2 else none) with
      | some e =>
        { cfg := cfg, trace := [], err := some ("Can't deploy an invalid app config: " ++ e) }
      | none =>
        match (determineImage env.engine cwd fl cfg).err with
        | some e =>
          { cfg := (determineImage env.engine cwd fl cfg).cfg,
            trace := traceOfCall (determineImage env.engine cwd fl cfg).call,
            err := some ("failed to fetch an image or build from source: " ++ e) }
        | none =>
          if fl.buildOnly then
            { cfg := (determineImage env.engine cwd fl cfg).cfg,
              trace := traceOfCall (determineImage env.engine cwd fl cfg).call, err := none }
          else
            if (useMachines appCompact args env.orgLookup).1 then
              { cfg := primaryRegionInject (determineImage env.engine cwd fl cfg).cfg,
                trace := traceOfCall (determineImage env.engine cwd fl cfg).call ++
                  [Effect.machineDeployCall],
                err := env.machineDeploy }
            else
              match env.createRelease with
              | some e =>
                { cfg := primaryRegionInject (determineImage env.engine cwd fl cfg).cfg,
                  trace := traceOfCall (determineImage env.engine cwd fl cfg).call ++
                    [Effect.createReleaseCall],
                  err := some e }
              | none =>
                if fl.detach then
                  { cfg := primaryRegionInject (determineImage env.engine cwd fl cfg).cfg,
                    trace := traceOfCall (determineImage env.engine cwd fl cfg).call ++
                      [Effect.createReleaseCall],
                    err := none }
                else
                  { cfg := primaryRegionInject (determineImage env.engine cwd fl cfg).cfg,
                    trace := traceOfCall (determineImage env.engine cwd fl cfg).call ++
                      [Effect.createReleaseCall],
                    err := env.releaseFlow }

/-- An image engine whose two operations return fixed results. -/
def constEngine (resolveRes buildRes : Option DeploymentImage × Option String) : ImageEngine :=
  { resolveReference := fun _ => resolveRes, buildImage := fun _ => buildRes }

/-- Flags with every field empty or off, for concrete runs. -/
def flagsOff : Flags :=
  { image := "", imageLabel := "", buildOnly := false, push := false, noCache := false,
    dockerfile := "", ignorefile := "", buildTarget := "", buildArgs := [],
    buildSecrets := [], regionFlag := "", strategy := "", detach := false }

/-- A minimal app config for concrete runs. -/
def baseConfig : Config :=
  { appName := "demo", primaryRegion := "", env := [], build := none, dockerfile := "",
    ignorefile := "", configFilePath := "/app/fly.toml", dockerBuildTarget := "",
    buildStrategies := [] }

/-- A never-deployed nomad-platform app summary for concrete runs. -/
def baseApp : AppCompact :=
  { deployed := false, platformVersion := "nomad", organizationSlug := "personal" }

/-- A fixed image for concrete runs. -/
def baseImage : DeploymentImage := { tag := "registry/demo:v1", size := 1000 }

/-- A pipeline environment in which every external call succeeds and the
engine always yields the same image. -/
def baseEnv : PipelineEnv :=
  { getAppCompact := Except.ok baseApp,
    orgLookup := (false, none), ensureV2 := none,
    engine := constEngine (some baseImage, none) (some baseImage, none),
    createRelease := none, releaseFlow := none, machineDeploy := none }

/-- A `DeployWithConfigArgs` with every flag off, for concrete runs. -/
def argsOff : DeployWithConfigArgs :=
  { forceMachines := false, forceNomad := false, forceYes := false }

/-- An already-deployed machines-platform app summary, for concrete runs
that select the machines backend. -/
def machinesApp : AppCompact :=
  { deployed := true, platformVersion := "machines", organizationSlug := "personal" }

/-- Frame relation between two configs: equal everywhere except possibly
the `PRIMARY_REGION` entry of the environment mapping and the
build-section args map — the only two spots the deploy pipeline writes
to after config resolution. -/
def ConfigFramed (a b : Config) : Prop :=
  a.appName = b.appName ∧
  a.primaryRegion = b.primaryRegion ∧
  a.dockerfile = b.dockerfile ∧
  a.ignorefile = b.ignorefile ∧
  a.configFilePath = b.configFilePath ∧
  a.dockerBuildTarget = b.dockerBuildTarget ∧
  a.buildStrategies = b.buildStrategies ∧
  Option.map Build.image a.build = Option.map Build.image b.build ∧
  Option.map Build.builder a.build = Option.map Build.builder b.build ∧
  Option.map Build.builtin a.build = Option.map Build.builtin b.build ∧
  Option.map Build.settings a.build = Option.map Build.settings b.build ∧
  Option.map Build.buildpacks a.build = Option.map Build.buildpacks b.build ∧
  ∀ k, k ≠ "PRIMARY_REGION" → ArgsMap.find a.env k = ArgsMap.find b.env k

/-! ## Helper lemmas about the map model -/

theorem ArgsMap.find_filter_ne (m : ArgsMap) (k key : String) (h : key ≠ k) :
    ArgsMap.find (List.filter (fun p => !(p.1 == k)) m) key = ArgsMap.find m key := by
  induction m with
  | nil => rfl
  | cons p rest ih =>
    obtain ⟨pk, pv⟩ := p
    by_cases hp : pk = k
    · have hkey : (pk == key) = false := by
        rw [hp]; simp [Ne.symm h]
      simp [List.filter_cons, hp, ArgsMap.find, hkey, ih, Ne.symm h]
    · by_cases hpkey : pk = key
      · simp [List.filter_cons, hp, ArgsMap.find, hpkey, h]
      · simp [List.filter_cons, hp, hpkey, ArgsMap.find, ih]

theorem ArgsMap.find_insert_self (m : ArgsMap) (k v : String) :
    ArgsMap.find (ArgsMap.insert m k v) k = some v := by
  simp [ArgsMap.insert, ArgsMap.find]

theorem ArgsMap.find_insert_ne (m : ArgsMap) (k v key : String) (h : key ≠ k) :
    ArgsMap.find (ArgsMap.insert m k v) key = ArgsMap.find m key := by
  have hk : (k == key) = false := by simp [Ne.symm h]
  simp only [ArgsMap.insert, ArgsMap.find, hk, Bool.false_eq_true, if_false]
  exact ArgsMap.find_filter_ne m k key h

theorem ArgsMap.keys_insert_nodup (m : ArgsMap) (k v : String)
    (h : (ArgsMap.keys m).Nodup) : (ArgsMap.keys (ArgsMap.insert m k v)).Nodup := by
  have hsub : List.Sublist (ArgsMap.keys (List.filter (fun p => !(p.1 == k)) m))
      (ArgsMap.keys m) :=
    List.Sublist.map _ (List.filter_sublist m)
  have hnd : (ArgsMap.keys (List.filter (fun p => !(p.1 == k)) m)).Nodup :=
    List.Nodup.sublist hsub h
  have hnot : k ∉ ArgsMap.keys (List.filter (fun p => !(p.1 == k)) m) := by
    intro hmem
    simp only [ArgsMap.keys, List.mem_map, List.mem_filter] at hmem
    obtain ⟨p, ⟨_, hf⟩, hpk⟩ := hmem
    rw [hpk] at hf
    simp at hf
  have hkeys : ArgsMap.keys (ArgsMap.insert m k v) =
      k :: ArgsMap.keys (List.filter (fun p => !(p.1 == k)) m) := rfl
  rw [hkeys, List.nodup_cons]
  exact ⟨hnot, hnd⟩

theorem ArgsMap.find_eq_none_of_not_mem_keys (m : ArgsMap) (k : String)
    (h : k ∉ ArgsMap.keys m) : ArgsMap.find m k = none := by
  induction m with
  | nil => rfl
  | cons p rest ih =>
    obtain ⟨pk, pv⟩ := p
    simp only [ArgsMap.keys, List.map_cons, List.mem_cons] at h
    push_neg at h
    have hne : (pk == k) = false := by simp [Ne.symm h.1]
    simp only [ArgsMap.find, hne, Bool.false_eq_true, if_false]
    exact ih (by simpa [ArgsMap.keys] using h.2)

theorem ArgsMap.foldl_insert_find (cli : ArgsMap) :
    (ArgsMap.keys cli).Nodup → ∀ (args : ArgsMap) (k : String),
    ArgsMap.find (cli.foldl (fun m p => ArgsMap.insert m p.1 p.2) args) k =
      (match ArgsMap.find cli k with
       | some v => some v
       | none => ArgsMap.find args k) := by
  induction cli with
  | nil => intro _ args k; rfl
  | cons p rest ih =>
    intro hnd args k
    obtain ⟨pk, pv⟩ := p
    simp only [ArgsMap.keys, List.map_cons, List.nodup_cons] at hnd
    have ihk := ih (by simpa [ArgsMap.keys] using hnd.2) (ArgsMap.insert args pk pv) k
    simp only [List.foldl_cons]
    rw [ihk]
    by_cases hk : k = pk
    · rw [hk]
      have hnone : ArgsMap.find rest pk = none :=
        ArgsMap.find_eq_none_of_not_mem_keys rest pk (by simpa [ArgsMap.keys] using hnd.1)
      have hcons : ArgsMap.find ((pk, pv) :: rest) pk = some pv := by
        simp [ArgsMap.find]
      simp only [hnone, hcons, ArgsMap.find_insert_self]
    · have hcons : ArgsMap.find ((pk, pv) :: rest) k = ArgsMap.find rest k := by
        have hne : (pk == k) = false := by simp [Ne.symm hk]
        simp only [ArgsMap.find, hne, Bool.false_eq_true, if_false]
      rw [hcons, ArgsMap.find_insert_ne args pk pv k hk]

theorem parseKVAux_nodup (es : List String) :
    ∀ (acc m : ArgsMap), acc.keys.Nodup → parseKVAux acc es = Except.ok m →
      m.keys.Nodup := by
  induction es with
  | nil =>
    intro acc m h heq
    simp only [parseKVAux] at heq
    cases heq
    exact h
  | cons e rest ih =>
    intro acc m h heq
    simp only [parseKVAux] at heq
    cases hp : parseKVEntry e with
    | error err => rw [hp] at heq; cases heq
    | ok kv =>
      rw [hp] at heq
      exact ih _ m (ArgsMap.keys_insert_nodup acc kv.1 kv.2 h) heq

theorem parseKVStringsToMap_nodup (entries : List String) (m : ArgsMap)
    (h : parseKVStringsToMap entries = Except.ok m) : m.keys.Nodup :=
  parseKVAux_nodup entries [] m List.nodup_nil h

theorem useMachines_nil_error (ac : AppCompact) (args : DeployWithConfigArgs)
    (orgLookup : Bool × Option String) : (useMachines ac args orgLookup).2 = none := by
  unfold useMachines
  repeat' split
  all_goals rfl

/-! ## Claim theorems: backend selection -/

/-- C1: for every combination of deployment history, force flags,
recorded platform marker and org default-on setting, `useMachines`
returns (with a nil error) exactly the backend dictated by the spec §4.3
priority table `specSelectBackend`, evaluated top-to-bottom with first
match winning; in particular an already-deployed app gets exactly
`platformVersion == "machines"` regardless of both force flags. -/
theorem useMachines_matches_spec_priority_table
    (ac : AppCompact) (args : DeployWithConfigArgs) (orgLookup : Bool × Option String) :
    useMachines ac args orgLookup =
      (specSelectBackend (!ac.deployed) args.forceNomad args.forceMachines
        ac.platformVersion orgLookup.1, none) := by
  unfold useMachines specSelectBackend
  cases ac.deployed <;> cases args.forceNomad <;> cases args.forceMachines <;>
    cases args.forceYes <;>
      cases hpm : (ac.platformVersion == MachinesPlatform) <;> simp [hpm]

/-- C9: for every fixed assignment of the other inputs, `useMachines`
returns the same result whether the auto-confirm flag `ForceYes` is true
or false. -/
theorem useMachines_ignores_forceYes (ac : AppCompact) (forceMachines forceNomad : Bool)
    (orgLookup : Bool × Option String) :
    useMachines ac
        { forceMachines := forceMachines, forceNomad := forceNomad, forceYes := true }
        orgLookup =
      useMachines ac
        { forceMachines := forceMachines, forceNomad := forceNomad, forceYes := false }
        orgLookup := by
  unfold useMachines
  cases ac.deployed <;> cases forceNomad <;> cases forceMachines <;>
    cases hpm : (ac.platformVersion == MachinesPlatform) <;> simp [hpm]

/-- C3 counterexample: at a concrete input whose org default-on lookup
failed (`GetAppsV2DefaultOnForOrg` returned an error), `useMachines`
still returns a nil error — the lookup error is discarded by
`appsV2DefaultOn, _ := ...`, so the claim that no error of any called
operation is discarded is false. -/
theorem useMachines_swallows_org_lookup_error :
    useMachines baseApp
        { forceMachines := false, forceNomad := false, forceYes := false }
        (false, some "remote lookup failed") = (false, none) := by
  decide

/-! ## Claim theorems: image reference priority -/

/-- C5: `fetchImageRef` chooses the image reference by this priority: a
non-empty CLI image flag wins (even over a different non-empty
build-section image), otherwise a non-empty config build-section image,
otherwise the empty reference meaning build from source. -/
theorem fetchImageRef_priority (imageFlag : String) (cfg : Config) :
    (imageFlag ≠ "" → fetchImageRef imageFlag (some cfg) = imageFlag) ∧
    (imageFlag = "" → ∀ b, cfg.build = some b → b.image ≠ "" →
      fetchImageRef imageFlag (some cfg) = b.image) ∧
    (imageFlag = "" → cfg.build = none → fetchImageRef imageFlag (some cfg) = "") ∧
    (imageFlag = "" → ∀ b, cfg.build = some b → b.image = "" →
      fetchImageRef imageFlag (some cfg) = "") := by
  refine ⟨?_, ?_, ?_, ?_⟩
  · intro h
    simp [fetchImageRef, h]
  · intro h b hb _
    simp [fetchImageRef, h, hb]
  · intro h hb
    simp [fetchImageRef, h, hb]
  · intro h b hb hbi
    simp [fetchImageRef, h, hb, hbi]

/-- Witness for C5: with CLI flag `registry/cli:v2` and a config whose
build section declares the different image `registry/cfg:v1`, the flag's
reference wins. -/
theorem fetchImageRef_priority_witness :
    fetchImageRef "registry/cli:v2"
        (some { baseConfig with
          build := some { image := "registry/cfg:v1", builder := "", builtin := "",
                          settings := [], buildpacks := [], args := none } }) =
      "registry/cli:v2" := by
  exact (fetchImageRef_priority "registry/cli:v2" _).1 (by decide)

/-- C3 amended: `useMachines` discards the error of the org default-on
lookup and never itself returns a non-nil error, while every other
stage's failure terminates the run with a non-nil error: an app summary
fetch error is returned as is; a machines-config normalization error is
returned wrapped; an image determination error is returned wrapped; a
machine rollout error, a release creation error and a release flow error
are each returned as is once the pipeline reaches them. -/
theorem useMachines_discards_lookup_error_others_propagate :
    (∀ (ac : AppCompact) (args : DeployWithConfigArgs) (v : Bool) (e : String),
      useMachines ac args (v, some e) = useMachines ac args (v, none)) ∧
    (∀ (ac : AppCompact) (args : DeployWithConfigArgs) (orgLookup : Bool × Option String),
      (useMachines ac args orgLookup).2 = none) ∧
    (∀ (env : PipelineEnv) (cwd : String) (fl : Flags) (cfg : Config)
        (args : DeployWithConfigArgs) (e : String),
      (DeployWithConfig { env with getAppCompact := Except.error e } cwd fl cfg args).err =
        some e) ∧
    (∀ (env : PipelineEnv) (cwd : String) (fl : Flags) (cfg : Config)
        (args : DeployWithConfigArgs) (ac : AppCompact) (e : String),
      env.getAppCompact = Except.ok ac →
      (useMachines ac args env.orgLookup).1 = true →
      env.ensureV2 = some e →
      (DeployWithConfig env cwd fl cfg args).err =
        some ("Can't deploy an invalid app config: " ++ e)) ∧
    (∀ (env : PipelineEnv) (cwd : String) (fl : Flags) (cfg : Config)
        (args : DeployWithConfigArgs) (ac : AppCompact) (e : String),
      env.getAppCompact = Except.ok ac →
      ((useMachines ac args env.orgLookup).1 = true → env.ensureV2 = none) →
      (determineImage env.engine cwd fl cfg).err = some e →
      (DeployWithConfig env cwd fl cfg args).err =
        some ("failed to fetch an image or build from source: " ++ e)) ∧
    (∀ (env : PipelineEnv) (cwd : String) (fl : Flags) (cfg : Config)
        (args : DeployWithConfigArgs) (ac : AppCompact) (e : String),
      env.getAppCompact = Except.ok ac →
      (useMachines ac args env.orgLookup).1 = true →
      env.ensureV2 = none →
      (determineImage env.engine cwd fl cfg).err = none →
      fl.buildOnly = false →
      env.machineDeploy = some e →
      (DeployWithConfig env cwd fl cfg args).err = some e) ∧
    (∀ (env : PipelineEnv) (cwd : String) (fl : Flags) (cfg : Config)
        (args : DeployWithConfigArgs) (ac : AppCompact) (e : String),
      env.getAppCompact = Except.ok ac →
      (useMachines ac args env.orgLookup).1 = false →
      (determineImage env.engine cwd fl cfg).err = none →
      fl.buildOnly = false →
      env.createRelease = some e →
      (DeployWithConfig env cwd fl cfg args).err = some e) ∧
    (∀ (env : PipelineEnv) (cwd : String) (fl : Flags) (cfg : Config)
        (args : DeployWithConfigArgs) (ac : AppCompact) (e : String),
      env.getAppCompact = Except.ok ac →
      (useMachines ac args env.orgLookup).1 = false →
      (determineImage env.engine cwd fl cfg).err = none →
      fl.buildOnly = false →
      env.createRelease = none →
      fl.detach = false →
      env.releaseFlow = some e →
      (DeployWithConfig env cwd fl cfg args).err = some e) := by
  refine ⟨?_, ?_, ?_, ?_, ?_, ?_, ?_, ?_⟩
  · intro ac args v e
    rfl
  · intro ac args orgLookup
    unfold useMachines
    repeat' split
    all_goals rfl
  · intro env cwd fl cfg args e
    rfl
  · intro env cwd fl cfg args ac e hac hb hv2
    simp [DeployWithConfig, hac, useMachines_nil_error, hb, hv2]
  · intro env cwd fl cfg args ac e hac himpl himg
    cases hb : (useMachines ac args env.orgLookup).1
    · simp [DeployWithConfig, hac, useMachines_nil_error, hb, himg]
    · simp [DeployWithConfig, hac, useMachines_nil_error, hb, himpl hb, himg]
  · intro env cwd fl cfg args ac e hac hb hv2 himg hbo hmd
    simp [DeployWithConfig, hac, useMachines_nil_error, hb, hv2, himg, hbo, hmd]
  · intro env cwd fl cfg args ac e hac hb himg hbo hcr
    simp [DeployWithConfig, hac, useMachines_nil_error, hb, himg, hbo, hcr]
  · intro env cwd fl cfg args ac e hac hb himg hbo hcr hdet hrf
    simp [DeployWithConfig, hac, useMachines_nil_error, hb, himg, hbo, hcr, hdet, hrf]

/-- Witness for C3 amended: concrete runs in which each stage after the
org lookup fails and its error is returned (wrapped for config
normalization and image determination, verbatim for the app summary
fetch, machine rollout, release creation and release flow). -/
theorem useMachines_discards_lookup_error_others_propagate_witness :
    (DeployWithConfig { baseEnv with getAppCompact := Except.error "app fetch failed" }
        "/work" flagsOff baseConfig argsOff).err = some "app fetch failed" ∧
    (DeployWithConfig { baseEnv with getAppCompact := Except.ok machinesApp, ensureV2 := some "bad services" }
        "/work" flagsOff baseConfig argsOff).err =
      some ("Can't deploy an invalid app config: " ++ "bad services") ∧
    (DeployWithConfig { baseEnv with engine := constEngine (none, none) (none, some "build failed") }
        "/work" flagsOff baseConfig argsOff).err =
      some ("failed to fetch an image or build from source: " ++ "build failed") ∧
    (DeployWithConfig { baseEnv with getAppCompact := Except.ok machinesApp, machineDeploy := some "rollout failed" }
        "/work" flagsOff baseConfig argsOff).err = some "rollout failed" ∧
    (DeployWithConfig { baseEnv with createRelease := some "release failed" }
        "/work" flagsOff baseConfig argsOff).err = some "release failed" ∧
    (DeployWithConfig { baseEnv with releaseFlow := some "watch failed" }
        "/work" flagsOff baseConfig argsOff).err = some "watch failed" := by
  refine ⟨?_, ?_, ?_, ?_, ?_, ?_⟩
  · exact useMachines_discards_lookup_error_others_propagate.2.2.1 baseEnv "/work" flagsOff
      baseConfig argsOff "app fetch failed"
  · exact useMachines_discards_lookup_error_others_propagate.2.2.2.1 _ "/work" flagsOff
      baseConfig argsOff machinesApp "bad services" rfl (by decide) rfl
  · exact useMachines_discards_lookup_error_others_propagate.2.2.2.2.1 _ "/work" flagsOff
      baseConfig argsOff baseApp "build failed" rfl (fun _ => rfl) rfl
  · exact useMachines_discards_lookup_error_others_propagate.2.2.2.2.2.1 _ "/work" flagsOff
      baseConfig argsOff machinesApp "rollout failed" rfl (by decide) rfl rfl rfl rfl
  · exact useMachines_discards_lookup_error_others_propagate.2.2.2.2.2.2.1 _ "/work" flagsOff
      baseConfig argsOff baseApp "release failed" rfl (by decide) rfl rfl rfl
  · exact useMachines_discards_lookup_error_others_propagate.2.2.2.2.2.2.2 _ "/work" flagsOff
      baseConfig argsOff baseApp "watch failed" rfl (by decide) rfl rfl rfl rfl rfl

/-- C6: merging build args combines config and CLI build args so that
for every key present in both the CLI value wins and every key present
in only one side survives with its value; a malformed CLI entry makes
`mergeBuildArgs` fail with an `invalid build args` error instead of
returning a partial map. -/
theorem mergeBuildArgs_cli_overrides_config :
    (∀ (configArgs : ArgsMap) (entries : List String) (cli : ArgsMap),
      parseKVStringsToMap entries = Except.ok cli →
      ∃ merged, mergeBuildArgs (some configArgs) entries = Except.ok merged ∧
        ∀ k, ArgsMap.find merged k =
          (match ArgsMap.find cli k with
           | some v => some v
           | none => ArgsMap.find configArgs k)) ∧
    (∀ (configArgs : Option ArgsMap) (entries : List String) (e : String),
      parseKVStringsToMap entries = Except.error e →
      mergeBuildArgs configArgs entries = Except.error ("invalid build args: " ++ e)) := by
  constructor
  · intro configArgs entries cli hp
    refine ⟨cli.foldl (fun m p => ArgsMap.insert m p.1 p.2) configArgs, ?_, ?_⟩
    · unfold mergeBuildArgs
      rw [hp]
      rfl
    · intro k
      exact ArgsMap.foldl_insert_find cli (parseKVStringsToMap_nodup entries cli hp)
        configArgs k
  · intro configArgs entries e hp
    unfold mergeBuildArgs
    rw [hp]

/-- Witness for C6: CLI build-arg `A=1` merged with config build args
`{A ↦ 0, B ↦ 2}` yields `A ↦ 1` (CLI wins) and keeps `B ↦ 2`, and the
malformed CLI entry `AB` fails with the wrapped error. -/
theorem mergeBuildArgs_cli_overrides_config_witness :
    (∃ merged, mergeBuildArgs (some [("A", "0"), ("B", "2")]) ["A=1"] = Except.ok merged ∧
      ArgsMap.find merged "A" = some "1" ∧ ArgsMap.find merged "B" = some "2") ∧
    mergeBuildArgs (some []) ["AB"] = Except.error "invalid build args: AB" := by
  constructor
  · obtain ⟨merged, hm, hf⟩ :=
      mergeBuildArgs_cli_overrides_config.1 [("A", "0"), ("B", "2")] ["A=1"] [("A", "1")] rfl
    refine ⟨merged, hm, ?_, ?_⟩
    · rw [hf "A"]
      decide
    · rw [hf "B"]
      decide
  · exact mergeBuildArgs_cli_overrides_config.2 (some []) ["AB"] "AB" rfl

/-- Joining a non-empty last segment never yields the empty path. -/
theorem filepathJoin_ne_empty (a b : String) (hb : b ≠ "") : filepathJoin a b ≠ "" := by
  unfold filepathJoin
  by_cases ha : a = ""
  · simp [ha, hb]
  · rw [if_neg (by simpa using ha), if_neg (by simpa using hb)]
    intro hcontra
    have hlen := congrArg String.length hcontra
    rw [String.length_append, String.length_append] at hlen
    have h1 : ("/" : String).length = 1 := rfl
    have h0 : ("" : String).length = 0 := rfl
    rw [h1, h0] at hlen
    omega

/-- C7: Dockerfile path resolution: a config-declared path is joined to
the config file's directory and absolutized, and the CLI `--dockerfile`
flag is ignored (the result does not depend on it); only when the config
declares no path is the CLI path used, absolutized; with neither, the
result is empty. -/
theorem resolveDockerfilePath_config_beats_cli
    (cwd : String) (cfg : Config) (dfFlag dfFlag2 : String) :
    (cfg.dockerfile ≠ "" →
      resolveDockerfilePath cwd cfg dfFlag =
        filepathAbs cwd (filepathJoin (filepathDir cfg.configFilePath) cfg.dockerfile) ∧
      resolveDockerfilePath cwd cfg dfFlag = resolveDockerfilePath cwd cfg dfFlag2) ∧
    (cfg.dockerfile = "" → dfFlag ≠ "" →
      resolveDockerfilePath cwd cfg dfFlag = filepathAbs cwd dfFlag) ∧
    (cfg.dockerfile = "" → dfFlag = "" → resolveDockerfilePath cwd cfg dfFlag = "") := by
  refine ⟨?_, ?_, ?_⟩
  · intro h
    have hne : filepathJoin (filepathDir cfg.configFilePath) cfg.dockerfile ≠ "" :=
      filepathJoin_ne_empty _ _ h
    constructor <;> simp [resolveDockerfilePath, h, hne]
  · intro h hf
    simp [resolveDockerfilePath, h, hf]
  · intro h hf
    simp [resolveDockerfilePath, h, hf]

/-- Witness for C7: config declares `Dockerfile.prod`, the config file
lives at `/app/fly.toml`, the CLI flag says `/other/Dockerfile`; the
result is `/app/Dockerfile.prod` and coincides with the result under a
different CLI flag. -/
theorem resolveDockerfilePath_config_beats_cli_witness :
    resolveDockerfilePath "/work" { baseConfig with dockerfile := "Dockerfile.prod" }
        "/other/Dockerfile" = "/app/Dockerfile.prod" ∧
    resolveDockerfilePath "/work" { baseConfig with dockerfile := "Dockerfile.prod" }
        "/other/Dockerfile" =
      resolveDockerfilePath "/work" { baseConfig with dockerfile := "Dockerfile.prod" }
        "/elsewhere/Dockerfile" := by
  have h := (resolveDockerfilePath_config_beats_cli "/work"
    { baseConfig with dockerfile := "Dockerfile.prod" } "/other/Dockerfile"
    "/elsewhere/Dockerfile").1 (by decide)
  exact ⟨h.1.trans (by decide), h.2⟩

/-! ## Helper lemmas about `useMachines`, `determineImage` and the pipeline -/

/-- Case analysis of `determineImage`: either the resolve path was taken
(publish is the negated build-only flag and the engine result is returned
verbatim), or a CLI parse error stopped it before any engine call, or the
build path called `BuildImage` (publish is push-or-not-build-only and a
`(nil, nil)` engine result becomes the `no image specified` error). -/
theorem determineImage_spec (engine : ImageEngine) (cwd : String) (fl : Flags) (cfg : Config) :
    ((determineImage engine cwd fl cfg).call =
        some (ImageCall.resolveReference (refOptionsOf cwd fl cfg)) ∧
      (refOptionsOf cwd fl cfg).publish = !fl.buildOnly ∧
      (determineImage engine cwd fl cfg).img =
        (engine.resolveReference (refOptionsOf cwd fl cfg)).1 ∧
      (determineImage engine cwd fl cfg).err =
        (engine.resolveReference (refOptionsOf cwd fl cfg)).2) ∨
    ((determineImage engine cwd fl cfg).call = none ∧
      (determineImage engine cwd fl cfg).img = none ∧
      (determineImage engine cwd fl cfg).err ≠ none) ∨
    (∃ secrets merged,
      (determineImage engine cwd fl cfg).call =
        some (ImageCall.buildImage (imageOptionsOf cwd fl cfg secrets merged)) ∧
      (imageOptionsOf cwd fl cfg secrets merged).publish = (fl.push || !fl.buildOnly) ∧
      (determineImage engine cwd fl cfg).img =
        (engine.buildImage (imageOptionsOf cwd fl cfg secrets merged)).1 ∧
      (determineImage engine cwd fl cfg).err =
        buildErr (engine.buildImage (imageOptionsOf cwd fl cfg secrets merged))) := by
  unfold determineImage
  split
  · exact Or.inl ⟨rfl, rfl, rfl, rfl⟩
  · split
    · exact Or.inr (Or.inl ⟨rfl, rfl, by simp⟩)
    · split
      · exact Or.inr (Or.inl ⟨rfl, rfl, by simp⟩)
      · exact Or.inr (Or.inr ⟨_, _, rfl, rfl, rfl, rfl⟩)

/-- The config returned by `determineImage` is either the one passed in,
or the one passed in with some merged build args written back. -/
theorem determineImage_cfg_cases (engine : ImageEngine) (cwd : String) (fl : Flags)
    (cfg : Config) :
    (determineImage engine cwd fl cfg).cfg = cfg ∨
    ∃ merged, (determineImage engine cwd fl cfg).cfg = writeBackArgs cfg merged := by
  unfold determineImage
  split
  · exact Or.inl rfl
  · split
    · exact Or.inl rfl
    · split
      · exact Or.inl rfl
      · exact Or.inr ⟨_, rfl⟩

theorem ConfigFramed.rfl (a : Config) : ConfigFramed a a :=
  ⟨Eq.refl _, Eq.refl _, Eq.refl _, Eq.refl _, Eq.refl _, Eq.refl _, Eq.refl _, Eq.refl _,
    Eq.refl _, Eq.refl _, Eq.refl _, Eq.refl _, fun _ _ => Eq.refl _⟩

theorem ConfigFramed.trans {a b c : Config} (h1 : ConfigFramed a b) (h2 : ConfigFramed b c) :
    ConfigFramed a c := by
  obtain ⟨e1, e2, e3, e4, e5, e6, e7, e8, e9, e10, e11, e12, e13⟩ := h1
  obtain ⟨f1, f2, f3, f4, f5, f6, f7, f8, f9, f10, f11, f12, f13⟩ := h2
  exact ⟨e1.trans f1, e2.trans f2, e3.trans f3, e4.trans f4, e5.trans f5, e6.trans f6,
    e7.trans f7, e8.trans f8, e9.trans f9, e10.trans f10, e11.trans f11, e12.trans f12,
    fun k hk => (e13 k hk).trans (f13 k hk)⟩

/-- The args write-back changes nothing of the config except possibly
the build section's args map. -/
theorem writeBackArgs_framed (cfg : Config) (merged : ArgsMap) :
    ConfigFramed (writeBackArgs cfg merged) cfg := by
  unfold ConfigFramed writeBackArgs
  repeat' split
  all_goals simp_all

/-- The `PRIMARY_REGION` injection changes nothing of the config except
possibly the `PRIMARY_REGION` entry of the environment mapping. -/
theorem primaryRegionInject_framed (cfg : Config) :
    ConfigFramed (primaryRegionInject cfg) cfg := by
  unfold ConfigFramed primaryRegionInject
  split
  · refine ⟨rfl, rfl, rfl, rfl, rfl, rfl, rfl, rfl, rfl, rfl, rfl, rfl, ?_⟩
    intro k hk
    exact ArgsMap.find_insert_ne cfg.env "PRIMARY_REGION" cfg.primaryRegion k hk
  · exact ConfigFramed.rfl cfg

/-- The config coming back from `determineImage` is framed by the one
passed in. -/
theorem determineImage_cfg_framed (engine : ImageEngine) (cwd : String) (fl : Flags)
    (cfg : Config) : ConfigFramed (determineImage engine cwd fl cfg).cfg cfg := by
  rcases determineImage_cfg_cases engine cwd fl cfg with h | ⟨merged, h⟩
  · rw [h]; exact ConfigFramed.rfl cfg
  · rw [h]; exact writeBackArgs_framed cfg merged

/-- The config returned by the pipeline is the untouched input on an
early exit, or the one `determineImage` returned, possibly with the
`PRIMARY_REGION` injection applied. -/
theorem DeployWithConfig_cfg_cases (env : PipelineEnv) (cwd : String) (fl : Flags)
    (cfg : Config) (args : DeployWithConfigArgs) :
    (DeployWithConfig env cwd fl cfg args).cfg = cfg ∨
    (DeployWithConfig env cwd fl cfg args).cfg = (determineImage env.engine cwd fl cfg).cfg ∨
    (DeployWithConfig env cwd fl cfg args).cfg =
      primaryRegionInject (determineImage env.engine cwd fl cfg).cfg := by
  unfold DeployWithConfig
  repeat' split
  all_goals simp

/-! ## Claim theorems: image determination and pipeline -/

/-- C2 counterexample: with the CLI image flag set (resolve-by-reference
path) and an engine whose `ResolveReference` returns `(nil, nil)`, the
determiner returns `(nil, nil)` verbatim instead of failing with a
`no image specified` error: the nil-image check exists only on the
build-from-source path. -/
theorem determineImage_resolve_path_propagates_nil_nil :
    (determineImage (constEngine (none, none) (none, none)) "/work"
        { flagsOff with image := "registry/demo:v1" } baseConfig).img = none ∧
    (determineImage (constEngine (none, none) (none, none)) "/work"
        { flagsOff with image := "registry/demo:v1" } baseConfig).err = none := by
  constructor <;> rfl

/-- C2 amended: the `no image specified` invariant check is applied on
the build-from-source path only: if `BuildImage` was called and returned
`(nil, nil)`, the determiner fails with `no image specified`; on the
resolve-by-reference path the engine's result — including `(nil, nil)` —
is returned verbatim. -/
theorem determineImage_no_image_specified_build_path_only
    (engine : ImageEngine) (cwd : String) (fl : Flags) (cfg : Config) :
    (∀ secrets merged,
      (determineImage engine cwd fl cfg).call =
        some (ImageCall.buildImage (imageOptionsOf cwd fl cfg secrets merged)) →
      engine.buildImage (imageOptionsOf cwd fl cfg secrets merged) = (none, none) →
      (determineImage engine cwd fl cfg).err = some "no image specified") ∧
    (∀ opts, (determineImage engine cwd fl cfg).call =
        some (ImageCall.resolveReference opts) →
      (determineImage engine cwd fl cfg).img = (engine.resolveReference opts).1 ∧
      (determineImage engine cwd fl cfg).err = (engine.resolveReference opts).2) := by
  rcases determineImage_spec engine cwd fl cfg with
    ⟨hcall, _, himg, herr⟩ | ⟨hcall, himg, herr⟩ | ⟨s, m, hcall, _, himg, herr⟩
  · constructor
    · intro secrets merged h hb
      rw [hcall] at h
      simp at h
    · intro opts h
      rw [hcall] at h
      simp only [Option.some.injEq, ImageCall.resolveReference.injEq] at h
      subst h
      exact ⟨himg, herr⟩
  · constructor
    · intro secrets merged h hb
      rw [hcall] at h
      simp at h
    · intro opts h
      rw [hcall] at h
      simp at h
  · constructor
    · intro secrets merged h hb
      rw [hcall] at h
      simp only [Option.some.injEq, ImageCall.buildImage.injEq] at h
      rw [herr, h, hb]
      rfl
    · intro opts h
      rw [hcall] at h
      simp at h

/-- Witness for C2 amended: a concrete build-from-source run whose
engine returns `(nil, nil)` fails with `no image specified`. -/
theorem determineImage_no_image_specified_build_path_only_witness :
    (determineImage (constEngine (none, none) (none, none)) "/work" flagsOff
        baseConfig).err = some "no image specified" :=
  (determineImage_no_image_specified_build_path_only (constEngine (none, none) (none, none))
    "/work" flagsOff baseConfig).1 [] [] rfl rfl

/-- C10: the publish option handed to the image engine is the negated
build-only flag on the resolve-by-reference path (the push flag is
ignored there) and is push-or-not-build-only on the build-from-source
path; hence with both build-only and push set a source build is still
published while a prebuilt reference is not. -/
theorem determineImage_publish_flags
    (engine : ImageEngine) (cwd : String) (fl : Flags) (cfg : Config) :
    (∀ opts, (determineImage engine cwd fl cfg).call =
        some (ImageCall.resolveReference opts) → opts.publish = !fl.buildOnly) ∧
    (∀ opts, (determineImage engine cwd fl cfg).call =
        some (ImageCall.buildImage opts) → opts.publish = (fl.push || !fl.buildOnly)) := by
  rcases determineImage_spec engine cwd fl cfg with
    ⟨hcall, hpub, _, _⟩ | ⟨hcall, _, _⟩ | ⟨s, m, hcall, hpub, _, _⟩
  · constructor
    · intro opts h
      rw [hcall] at h
      simp only [Option.some.injEq, ImageCall.resolveReference.injEq] at h
      subst h
      exact hpub
    · intro opts h
      rw [hcall] at h
      simp at h
  · constructor
    · intro opts h
      rw [hcall] at h
      simp at h
    · intro opts h
      rw [hcall] at h
      simp at h
  · constructor
    · intro opts h
      rw [hcall] at h
      simp at h
    · intro opts h
      rw [hcall] at h
      simp only [Option.some.injEq, ImageCall.buildImage.injEq] at h
      subst h
      exact hpub

/-- Witness for C10: with build-only and push both set, the resolve path
hands publish `false` to the engine while the build path hands publish
`true`. -/
theorem determineImage_publish_flags_witness :
    (determineImage baseEnv.engine "/w"
        { flagsOff with image := "registry/demo:v1", buildOnly := true, push := true }
        baseConfig).call =
      some (ImageCall.resolveReference (refOptionsOf "/w"
        { flagsOff with image := "registry/demo:v1", buildOnly := true, push := true }
        baseConfig)) ∧
    (refOptionsOf "/w"
        { flagsOff with image := "registry/demo:v1", buildOnly := true, push := true }
        baseConfig).publish = false ∧
    (determineImage baseEnv.engine "/w" { flagsOff with buildOnly := true, push := true }
        baseConfig).call =
      some (ImageCall.buildImage (imageOptionsOf "/w"
        { flagsOff with buildOnly := true, push := true } baseConfig [] [])) ∧
    (imageOptionsOf "/w" { flagsOff with buildOnly := true, push := true }
        baseConfig [] []).publish = true := by
  refine ⟨rfl, ?_, rfl, ?_⟩
  · have h := (determineImage_publish_flags baseEnv.engine "/w"
      { flagsOff with image := "registry/demo:v1", buildOnly := true, push := true }
      baseConfig).1 _ rfl
    simpa using h
  · have h := (determineImage_publish_flags baseEnv.engine "/w"
      { flagsOff with buildOnly := true, push := true } baseConfig).2 _ rfl
    simpa using h

/-- C8: when build-only is requested and the stages up to and including
image determination succeed, `DeployWithConfig` returns success right
after image determination, whatever backend was selected, and neither
`createRelease` nor the machine rollout is ever dispatched in that run. -/
theorem DeployWithConfig_buildOnly_stops_after_image
    (env : PipelineEnv) (cwd : String) (fl : Flags) (cfg : Config)
    (args : DeployWithConfigArgs) (ac : AppCompact)
    (hac : env.getAppCompact = Except.ok ac)
    (hv2 : env.ensureV2 = none)
    (himg : (determineImage env.engine cwd fl cfg).err = none)
    (hbo : fl.buildOnly = true) :
    (DeployWithConfig env cwd fl cfg args).err = none ∧
    Effect.createReleaseCall ∉ (DeployWithConfig env cwd fl cfg args).trace ∧
    Effect.machineDeployCall ∉ (DeployWithConfig env cwd fl cfg args).trace := by
  simp only [DeployWithConfig, hac, useMachines_nil_error, hv2, ite_self, himg, hbo, if_true]
  refine ⟨trivial, ?_, ?_⟩ <;>
    cases hc : (determineImage env.engine cwd fl cfg).call <;> simp [traceOfCall, hc]

/-- Witness for C8: a concrete build-only run returns success and
dispatches no backend. -/
theorem DeployWithConfig_buildOnly_stops_after_image_witness :
    (DeployWithConfig baseEnv "/work" { flagsOff with buildOnly := true } baseConfig
        argsOff).err = none ∧
    Effect.createReleaseCall ∉ (DeployWithConfig baseEnv "/work"
        { flagsOff with buildOnly := true } baseConfig argsOff).trace ∧
    Effect.machineDeployCall ∉ (DeployWithConfig baseEnv "/work"
        { flagsOff with buildOnly := true } baseConfig argsOff).trace :=
  DeployWithConfig_buildOnly_stops_after_image baseEnv "/work"
    { flagsOff with buildOnly := true } baseConfig argsOff baseApp rfl rfl rfl rfl

/-- C4 counterexample: a concrete run in which the pipeline writes to
the resolved config after image determination: with primary region `iad`
and no `PRIMARY_REGION` in the environment, `DeployWithConfig` writes
`PRIMARY_REGION ↦ iad` into the config's environment mapping, so the
config is not immutable after resolution. -/
theorem DeployWithConfig_mutates_config_after_resolution :
    (DeployWithConfig baseEnv "/work" flagsOff { baseConfig with primaryRegion := "iad" }
        argsOff).cfg.env = [("PRIMARY_REGION", "iad")] ∧
    ({ baseConfig with primaryRegion := "iad" } : Config).env = [] := by
  constructor <;> rfl

/-- C4 amended: after config resolution, later pipeline stages do write
to the config, but in exactly two spots: `DeployWithConfig` injects
`PRIMARY_REGION` into the environment mapping when a primary region is
set and the environment lacks one, and the merged CLI build args are
written through the config's own build-args map; everything else — app
name, primary region, Dockerfile/ignore-file paths, config file path,
build target, build strategies, every other environment key, and every
build-section field other than args — is unchanged by the whole run. -/
theorem DeployWithConfig_config_frame
    (env : PipelineEnv) (cwd : String) (fl : Flags) (cfg : Config)
    (args : DeployWithConfigArgs) :
    ConfigFramed (DeployWithConfig env cwd fl cfg args).cfg cfg := by
  rcases DeployWithConfig_cfg_cases env cwd fl cfg args with h | h | h
  · rw [h]
    exact ConfigFramed.rfl cfg
  · rw [h]
    exact determineImage_cfg_framed env.engine cwd fl cfg
  · rw [h]
    exact ConfigFramed.trans (primaryRegionInject_framed _)
      (determineImage_cfg_framed env.engine cwd fl cfg)

/-- Witness for C4 amended: in a concrete run that injects
`PRIMARY_REGION`, an unrelated environment key and the app name are
untouched. -/
theorem DeployWithConfig_config_frame_witness :
    ArgsMap.find (DeployWithConfig baseEnv "/work" flagsOff
        { baseConfig with primaryRegion := "iad", env := [("FOO", "bar")] }
        argsOff).cfg.env "FOO" = some "bar" ∧
    (DeployWithConfig baseEnv "/work" flagsOff
        { baseConfig with primaryRegion := "iad", env := [("FOO", "bar")] }
        argsOff).cfg.appName = "demo" := by
  have h := DeployWithConfig_config_frame baseEnv "/work" flagsOff
    { baseConfig with primaryRegion := "iad", env := [("FOO", "bar")] } argsOff
  constructor
  · have hf := h.2.2.2.2.2.2.2.2.2.2.2.2 "FOO" (by decide)
    rw [hf]
    rfl
  · rw [h.1]
    rfl

end FlyctlDeploy
